import Mathlib

/-!
Verification development for the react-id-name repository (src/index.tsx).

The cache is a JavaScript object mapping string identifiers to
`AsyncFnReturn<T> = [AsyncState<T>, retryAction]` pairs.  We embed the
object as an association list in key-enumeration order, the reducer
actions as an inductive type, and the asynchronous `batchUpdate`
function as a pure function from the fetch outcome to the list of
dispatched actions and emitted fetch calls.  Retry closures are
defunctionalised: `createInitState` installs the empty closure
`async () => \x7b\x7d`, and the batch outcome installs a closure that
re-runs `batchUpdate([id])` when the provider is still mounted.
-/

namespace ReactIdName

/-- A JavaScript `Error` object, identified by its message string. -/
structure ErrObj where
  message : String
deriving DecidableEq

/-- `AsyncState<T>` from src/index.tsx: the literal object shape with fields
`loading`, `error`, `value`, `isInit`; an absent (`undefined`) field is
modelled as `none` / `false`. -/
structure AsyncState (T : Type) where
  loading : Bool
  error : Option ErrObj
  value : Option T
  isInit : Bool
deriving DecidableEq

/-- The defunctionalised retry closure stored next to each state.
`noop` is the closure `async () => \x7b\x7d` from `createInitState`;
`refetch id` is the closure installed by `batchUpdate` that runs
`batchUpdate([id])` when the provider is still mounted. -/
inductive RetryAction where
  | noop : RetryAction
  | refetch (id : String) : RetryAction
deriving DecidableEq

/-- `AsyncFnReturn<T> = [AsyncState<T>, () => Promise<void>]`. -/
abbrev AsyncFnReturn (T : Type) := AsyncState T × RetryAction

/-- `CacheMap<T> = Record<string, AsyncFnReturn<T>>`, embedded as an
association list in key-enumeration order. -/
abbrev CacheMap (T : Type) := List (String × AsyncFnReturn T)

/-- `cacheTimestamps`: `Record<string, number>`. -/
abbrev Timestamps := List (String × Nat)

/-- JavaScript property read `m[k]`: the value at the first occurrence of
key `k`. -/
def objGet {α : Type} : List (String × α) → String → Option α
  | [], _ => none
  | p :: rest, k => if p.1 = k then some p.2 else objGet rest k

/-- JavaScript object spread `{...a, ...b}`: keys of `a` first (values
overridden by `b` where both have the key), then the keys of `b` that are
not in `a`, in order. -/
def objSpread {α : Type} (a b : List (String × α)) : List (String × α) :=
  a.map (fun p => match objGet b p.1 with
    | some v => (p.1, v)
    | none => p)
  ++ b.filter (fun p => (objGet a p.1).isNone)

/-- `delete m[id]` for each id in `ids` (remaining keys keep their order). -/
def objDeleteKeys {α : Type} (m : List (String × α)) (ids : List String) : List (String × α) :=
  m.filter (fun p => !(ids.contains p.1))

/-- JavaScript property write `m[k] = v`: overwrite in place when the key
exists, otherwise append the key at the end. -/
def objSet {α : Type} (m : List (String × α)) (k : String) (v : α) : List (String × α) :=
  if (objGet m k).isSome then
    m.map (fun p => if p.1 = k then (k, v) else p)
  else
    m ++ [(k, v)]

/-- The `CACHE_ACTION` tags together with their payloads. -/
inductive CacheAction (T : Type) where
  | ADD (payload : CacheMap T)
  | UPDATE (payload : CacheMap T)
  | CLEAR (payload : List String)
  | CLEAR_ALL
deriving DecidableEq

/-- `cacheReducer` from src/index.tsx:
ADD is `{...payload, ...state}` (existing entries win),
UPDATE is `{...state, ...payload}` (payload wins),
CLEAR deletes the named keys, CLEAR_ALL empties the map. -/
def cacheReducer {T : Type} (state : CacheMap T) : CacheAction T → CacheMap T
  | .ADD payload => objSpread payload state
  | .UPDATE payload => objSpread state payload
  | .CLEAR ids => objDeleteKeys state ids
  | .CLEAR_ALL => []

/-- Dispatch a list of actions in order. -/
def applyActions {T : Type} (s : CacheMap T) (acts : List (CacheAction T)) : CacheMap T :=
  acts.foldl cacheReducer s

/-- `createInitState`: `[{ loading: true, error: undefined, value: undefined,
isInit: true }, async () => \x7b\x7d]`. -/
def createInitState (T : Type) : AsyncFnReturn T :=
  (⟨true, none, none, true⟩, RetryAction.noop)

/-- `needUpdateIds`: `Object.keys(cacheMapState).filter((k) =>
cacheMapState[k]?.[0]?.isInit)`. -/
def needUpdateIds {T : Type} (m : CacheMap T) : List String :=
  (m.map Prod.fst).filter (fun k =>
    match objGet m k with
    | some e => e.1.isInit
    | none => false)

/-- `onItemView`: dispatch `ADD` with the singleton payload
`{ [id]: createInitState() }`. -/
def onItemView {T : Type} (m : CacheMap T) (id : String) : CacheMap T :=
  cacheReducer m (.ADD [(id, createInitState T)])

/-- `clearCache(ids?)`: when a non-empty id list is passed, dispatch
`CLEAR` and drop those timestamps; otherwise (no list, or an empty list,
since `ids && ids.length > 0` is falsy) dispatch `CLEAR_ALL` and reset all
timestamps. -/
def clearCacheOp {T : Type} (store : CacheMap T) (ts : Timestamps)
    (ids : Option (List String)) : CacheMap T × Timestamps :=
  match ids with
  | some l =>
      if 0 < l.length then
        (cacheReducer store (.CLEAR l), objDeleteKeys ts l)
      else
        (cacheReducer store .CLEAR_ALL, [])
  | none => (cacheReducer store .CLEAR_ALL, [])

/-- The synthesized not-found error: `new Error(\x60ID "${id}" not found\x60)`. -/
def notFoundError (id : String) : ErrObj :=
  ⟨"ID \"" ++ id ++ "\" not found"⟩

/-- Entry written on per-id success:
`[{ value: result, loading: false, error: undefined }, retry(id)]`. -/
def successEntry {T : Type} (id : String) (v : T) : AsyncFnReturn T :=
  (⟨false, none, some v, false⟩, RetryAction.refetch id)

/-- Entry written when the id is absent from an otherwise successful
result: `[{ value: undefined, loading: false, error: notFound }, retry(id)]`. -/
def notFoundEntry (T : Type) (id : String) : AsyncFnReturn T :=
  (⟨false, some (notFoundError id), none, false⟩, RetryAction.refetch id)

/-- Entry written in the catch branch when the whole batch call rejects
with `e`: `[{ value: undefined, loading: false, error: e }, retry(id)]`. -/
def batchFailEntry (T : Type) (id : String) (e : ErrObj) : AsyncFnReturn T :=
  (⟨false, some e, none, false⟩, RetryAction.refetch id)

/-- `loadingStateMap`: `Object.fromEntries(ids.map((id) =>
[id, createInitState()]))`. -/
def loadingStateMap (T : Type) (ids : List String) : CacheMap T :=
  ids.map (fun id => (id, createInitState T))

/-- `successStateMap`: the ids of the batch present in the result map,
each with its success entry, in batch order. -/
def successStateMap {T : Type} (ids : List String) (rm : List (String × T)) : CacheMap T :=
  ids.filterMap (fun id => (objGet rm id).map (fun v => (id, successEntry id v)))

/-- `errorStateMap` of the success branch: the ids of the batch absent
from the result map, each with its not-found entry, in batch order. -/
def errorStateMap (T : Type) (ids : List String) (rm : List (String × T)) : CacheMap T :=
  (ids.filter (fun id => (objGet rm id).isNone)).map (fun id => (id, notFoundEntry T id))

/-- Outcome of the awaited `request(ids)` promise: a resolved partial
result map, or a rejection carrying an error. -/
inductive FetchOutcome (T : Type) where
  | ok (resultMap : List (String × T))
  | err (e : ErrObj)

/-- The observable effects of one `batchUpdate(ids)` run: the action
dispatched before the await, the fetch calls issued, the actions
dispatched after the promise settles, and the timestamp writes. -/
structure BatchResult (T : Type) where
  preDispatch : List (CacheAction T)
  calls : List (List String)
  postDispatch : List (CacheAction T)
  tsUpdates : List (String × Nat)

/-- `batchUpdate(ids)` as a pure function of the fetch outcome and of the
mounted flag read after the promise settles.  Returns immediately when
`ids.length === 0`; otherwise dispatches the loading map, calls
`request(ids)`, and on settlement (only when still mounted) dispatches the
success and error maps (success branch, each only when non-empty) or the
uniform failure map (catch branch). -/
def batchUpdate {T : Type} (ids : List String) (isMounted : Bool)
    (outcome : FetchOutcome T) (now : Nat) : BatchResult T :=
  if ids.length = 0 then ⟨[], [], [], []⟩
  else
    let post : List (CacheAction T) :=
      if isMounted then
        match outcome with
        | .ok rm =>
            (if 0 < (successStateMap ids rm).length
              then [CacheAction.UPDATE (successStateMap ids rm)] else [])
            ++ (if 0 < (errorStateMap T ids rm).length
              then [CacheAction.UPDATE (errorStateMap T ids rm)] else [])
        | .err e =>
            [CacheAction.UPDATE (ids.map (fun id => (id, batchFailEntry T id e)))]
      else []
    let tsUps : List (String × Nat) :=
      if isMounted then
        match outcome with
        | .ok rm => (ids.filter (fun id => (objGet rm id).isSome)).map (fun id => (id, now))
        | .err _ => []
      else []
    ⟨[CacheAction.UPDATE (loadingStateMap T ids)], [ids], post, tsUps⟩

/-- Invoking a stored retry closure.  The `noop` closure does nothing; the
`refetch id` closure checks `mountedRef` at call time and then runs
`batchUpdate([id])`, whose settlement reads the mounted flag again. -/
def runRetry {T : Type} (r : RetryAction) (mountedAtCall mountedAtSettle : Bool)
    (outcome : FetchOutcome T) (now : Nat) : BatchResult T :=
  match r with
  | .noop => ⟨[], [], [], []⟩
  | .refetch id =>
      if mountedAtCall then batchUpdate [id] mountedAtSettle outcome now
      else ⟨[], [], [], []⟩

/-- Apply the timestamp writes `cacheTimestamps.current[id] = now`. -/
def applyTsUpdates (ts : Timestamps) (ups : List (String × Nat)) : Timestamps :=
  ups.foldl (fun t p => objSet t p.1 p.2) ts

/-- `expiredIds` inside `checkExpired`:
`Object.keys(cacheTimestamps.current).filter((id) => now -
cacheTimestamps.current[id] > cacheTTL)`. -/
def expiredIdsOf (ttl now : Nat) (ts : Timestamps) : List String :=
  (ts.map Prod.fst).filter (fun id =>
    match objGet ts id with
    | some t => decide (now - t > ttl)
    | none => false)

/-- `checkExpired` from the TTL effect: when the expired-id list is
non-empty, dispatch `CLEAR` for exactly those ids and delete their
timestamps. -/
def checkExpired {T : Type} (ttl now : Nat) (ts : Timestamps) (store : CacheMap T) :
    CacheMap T × Timestamps :=
  if 0 < (expiredIdsOf ttl now ts).length then
    (objDeleteKeys store (expiredIdsOf ttl now ts), objDeleteKeys ts (expiredIdsOf ttl now ts))
  else (store, ts)

/-- `setInterval(checkExpired, Math.min(cacheTTL, 60000))`: the sweep
period. -/
def sweepPeriod (ttl : Nat) : Nat := min ttl 60000

/-- The provider-level state observable in the embedding: the reducer
store, the timestamp record, and the log of fetch calls issued so far. -/
structure SysState (T : Type) where
  store : CacheMap T
  timestamps : Timestamps
  calls : List (List String)
deriving DecidableEq

/-- Events driving the provider: a consumer registering interest
(`onItemView`), the debounced needs-resolution set settling (the batch
effect firing, with the batch completing with the given outcome), one tick
of the TTL sweep, and a `clearCache` call. -/
inductive Event (T : Type) where
  | register (id : String)
  | settleBatch (outcome : FetchOutcome T) (now : Nat)
  | tick (ttl now : Nat)
  | clear (ids : Option (List String))

/-- One event of the provider loop.  The settle event mirrors the effect
`if (debouncedNeedUpdateIds.length > 0) batchUpdate(debouncedNeedUpdateIds)`
with the fetch completing while mounted. -/
def stepEvent {T : Type} (s : SysState T) : Event T → SysState T
  | .register id => { s with store := onItemView s.store id }
  | .settleBatch outcome now =>
      let ids := needUpdateIds s.store
      if 0 < ids.length then
        let br := batchUpdate ids true outcome now
        { store := applyActions s.store (br.preDispatch ++ br.postDispatch),
          timestamps := applyTsUpdates s.timestamps br.tsUpdates,
          calls := s.calls ++ br.calls }
      else s
  | .tick ttl now =>
      let r := checkExpired ttl now s.timestamps s.store
      { s with store := r.1, timestamps := r.2 }
  | .clear ids =>
      let r := clearCacheOp s.store s.timestamps ids
      { s with store := r.1, timestamps := r.2 }

/-- Run a list of events from a state. -/
def runEvents {T : Type} (s : SysState T) (es : List (Event T)) : SysState T :=
  es.foldl stepEvent s

/-! ### Lookup lemmas for the object operations -/

theorem objGet_append {α : Type} (a b : List (String × α)) (k : String) :
    objGet (a ++ b) k = match objGet a k with
      | some v => some v
      | none => objGet b k := by
  induction a with
  | nil => simp [objGet]
  | cons p rest ih =>
      by_cases h : p.1 = k <;> simp [objGet, h, ih]

theorem objGet_filter_key {α : Type} (m : List (String × α)) (q : String → Bool) (k : String) :
    objGet (m.filter (fun p => q p.1)) k = if q k then objGet m k else none := by
  induction m with
  | nil => simp [objGet]
  | cons p rest ih =>
      by_cases h : p.1 = k
      · subst h
        by_cases hq : q p.1 <;> simp [objGet, hq, ih]
      · by_cases hq : q p.1 <;> simp [objGet, h, hq, ih]

theorem objGet_map_pair {α : Type} (ids : List String) (f : String → α) (k : String) :
    objGet (ids.map (fun i => (i, f i))) k = if k ∈ ids then some (f k) else none := by
  induction ids with
  | nil => simp [objGet]
  | cons a rest ih =>
      by_cases h : a = k
      · subst h; simp [objGet]
      · simp [objGet, h, ih, Ne.symm h]

theorem objGet_objSpread {α : Type} (a b : List (String × α)) (k : String) :
    objGet (objSpread a b) k = match objGet b k with
      | some v => some v
      | none => objGet a k := by
  have hmap : objGet (a.map (fun p => match objGet b p.1 with
      | some v => (p.1, v)
      | none => p)) k = match objGet a k with
      | some w => (match objGet b k with
          | some v => some v
          | none => some w)
      | none => none := by
    induction a with
    | nil => simp [objGet]
    | cons p rest ih =>
        by_cases h : p.1 = k
        · subst h
          cases hb : objGet b p.1 <;> simp [objGet, hb, ih]
        · cases hb : objGet b p.1 <;> simp [objGet, h, hb, ih]
  have hfil : objGet (b.filter (fun p => (objGet a p.1).isNone)) k
      = if (objGet a k).isNone then objGet b k else none :=
    objGet_filter_key b (fun s => (objGet a s).isNone) k
  rw [objSpread, objGet_append, hmap]
  cases ha : objGet a k <;> cases hb : objGet b k <;> simp [hfil, ha, hb]

theorem objGet_objDeleteKeys {α : Type} (m : List (String × α)) (ids : List String) (k : String) :
    objGet (objDeleteKeys m ids) k = if k ∈ ids then none else objGet m k := by
  have := objGet_filter_key m (fun s => !(ids.contains s)) k
  rw [objDeleteKeys, this]
  by_cases h : k ∈ ids <;> simp [h]

theorem objGet_isSome_iff_mem_keys {α : Type} (m : List (String × α)) (k : String) :
    (objGet m k).isSome ↔ k ∈ m.map Prod.fst := by
  induction m with
  | nil => simp [objGet]
  | cons p rest ih =>
      simp only [List.map_cons, List.mem_cons]
      by_cases h : p.1 = k
      · rw [objGet, if_pos h]
        simp only [Option.isSome_some]
        exact ⟨fun _ => Or.inl h.symm, fun _ => trivial⟩
      · rw [objGet, if_neg h, ih]
        constructor
        · exact fun hm => Or.inr hm
        · rintro (rfl | hm)
          · exact absurd rfl h
          · exact hm

theorem objGet_eq_some_mem {α : Type} {m : List (String × α)} {k : String} {v : α}
    (h : objGet m k = some v) : (k, v) ∈ m := by
  induction m with
  | nil => simp [objGet] at h
  | cons p rest ih =>
      by_cases hp : p.1 = k
      · rw [objGet, if_pos hp] at h
        injection h with h2
        subst h2
        obtain ⟨a, b⟩ := p
        subst hp
        exact List.mem_cons_self _ _
      · rw [objGet, if_neg hp] at h
        exact List.mem_cons_of_mem _ (ih h)

theorem objGet_successStateMap {T : Type} (ids : List String) (rm : List (String × T)) (k : String) :
    objGet (successStateMap ids rm) k
      = if k ∈ ids then (objGet rm k).map (successEntry k) else none := by
  induction ids with
  | nil => simp [successStateMap, objGet]
  | cons a rest ih =>
      by_cases h : a = k
      · subst h
        cases hv : objGet rm a with
        | none =>
            simp only [successStateMap, List.filterMap_cons, hv, Option.map_none']
            rw [successStateMap] at ih
            simp [ih, hv]
        | some v =>
            simp only [successStateMap, List.filterMap_cons, hv, Option.map_some']
            simp [objGet]
      · cases hv : objGet rm a with
        | none =>
            simp only [successStateMap, List.filterMap_cons, hv, Option.map_none']
            rw [successStateMap] at ih
            simp [ih, h, Ne.symm h]
        | some v =>
            simp only [successStateMap, List.filterMap_cons, hv, Option.map_some']
            rw [successStateMap] at ih
            simp [objGet, h, ih, Ne.symm h]

theorem objGet_errorStateMap (T : Type) (ids : List String) (rm : List (String × T)) (k : String) :
    objGet (errorStateMap T ids rm) k
      = if k ∈ ids ∧ (objGet rm k).isNone then some (notFoundEntry T k) else none := by
  rw [errorStateMap, objGet_map_pair]
  simp only [List.mem_filter]

theorem objGet_applyActions_single_update {T : Type} (store p : CacheMap T) (k : String) :
    objGet (applyActions store [CacheAction.UPDATE p]) k
      = match objGet p k with
        | some v => some v
        | none => objGet store k := by
  simp only [applyActions, List.foldl_cons, List.foldl_nil, cacheReducer]
  rw [objGet_objSpread]
  cases objGet p k <;> rfl

/-- Lookup after applying the success-branch dispatches of `batchUpdate`:
the error map wins over the success map, which wins over the prior store
(the two `UPDATE`s are dispatched in that order, each only when its
payload is non-empty, and an empty payload changes nothing). -/
theorem objGet_applyActions_okPost {T : Type} (ids : List String) (rm : List (String × T))
    (store : CacheMap T) (now : Nat) (k : String) (hne : ids ≠ []) :
    objGet (applyActions store (batchUpdate ids true (.ok rm) now).postDispatch) k
      = match objGet (errorStateMap T ids rm) k with
        | some v => some v
        | none => match objGet (successStateMap ids rm) k with
          | some v => some v
          | none => objGet store k := by
  have hlen : ¬ ids.length = 0 := by
    simpa [List.length_eq_zero] using hne
  rw [batchUpdate, if_neg hlen]
  by_cases h1 : 0 < (successStateMap ids rm).length
  · by_cases h2 : 0 < (errorStateMap T ids rm).length
    · simp only [if_pos h1, if_pos h2]
      simp [applyActions, cacheReducer, objGet_objSpread]
      cases objGet (errorStateMap T ids rm) k <;>
        cases objGet (successStateMap ids rm) k <;> simp
    · have herr : errorStateMap T ids rm = [] :=
        List.length_eq_zero.mp (by omega)
      simp only [if_pos h1, if_neg h2]
      simp [applyActions, cacheReducer, objGet_objSpread, herr, objGet]
      cases objGet (successStateMap ids rm) k <;> rfl
  · have hsucc : successStateMap ids rm = [] :=
      List.length_eq_zero.mp (by omega)
    by_cases h2 : 0 < (errorStateMap T ids rm).length
    · simp only [if_neg h1, if_pos h2]
      simp [applyActions, cacheReducer, objGet_objSpread, hsucc, objGet]
      cases objGet (errorStateMap T ids rm) k <;> rfl
    · have herr : errorStateMap T ids rm = [] :=
        List.length_eq_zero.mp (by omega)
      simp [if_neg h1, if_neg h2, applyActions, hsucc, herr, objGet]

theorem applyActions_append {T : Type} (s : CacheMap T) (a b : List (CacheAction T)) :
    applyActions s (a ++ b) = applyActions (applyActions s a) b := by
  simp [applyActions]

/-- Membership in the needs-resolution set is exactly: the lookup yields
an entry whose `isInit` flag is set. -/
theorem mem_needUpdateIds_iff {T : Type} (m : CacheMap T) (k : String) :
    k ∈ needUpdateIds m ↔ ∃ e, objGet m k = some e ∧ e.1.isInit = true := by
  rw [needUpdateIds, List.mem_filter]
  constructor
  · rintro ⟨-, hp⟩
    cases hg : objGet m k with
    | none => rw [hg] at hp; simp at hp
    | some e =>
        rw [hg] at hp
        exact ⟨e, rfl, hp⟩
  · rintro ⟨e, hg, hinit⟩
    refine ⟨?_, ?_⟩
    · rw [← objGet_isSome_iff_mem_keys, hg]
      rfl
    · rw [hg]
      exact hinit

/-- For a non-empty batch, `batchUpdate` dispatches exactly the loading
map before the await and issues exactly one fetch call with the full id
list. -/
theorem batchUpdate_nonempty_parts {T : Type} (ids : List String) (m : Bool)
    (o : FetchOutcome T) (now : Nat) (h : ¬ ids.length = 0) :
    (batchUpdate (T := T) ids m o now).preDispatch
      = [CacheAction.UPDATE (loadingStateMap T ids)] ∧
    (batchUpdate (T := T) ids m o now).calls = [ids] := by
  rw [batchUpdate.eq_def, if_neg h]
  exact ⟨rfl, rfl⟩

/-- When the mounted check fails at settle time, no settle dispatch and no
timestamp write happens. -/
theorem batchUpdate_not_mounted {T : Type} (ids : List String) (o : FetchOutcome T)
    (now : Nat) :
    (batchUpdate (T := T) ids false o now).postDispatch = [] ∧
    (batchUpdate (T := T) ids false o now).tsUpdates = [] := by
  by_cases h : ids.length = 0 <;> cases o <;> simp [batchUpdate, h]

/-- The catch-branch settle dispatch: one `UPDATE` with the uniform
failure map. -/
theorem batchUpdate_err_post {T : Type} (ids : List String) (e : ErrObj) (now : Nat)
    (h : ¬ ids.length = 0) :
    (batchUpdate (T := T) ids true (.err e) now).postDispatch
      = [CacheAction.UPDATE (ids.map (fun id => (id, batchFailEntry T id e)))] := by
  rw [batchUpdate, if_neg h]
  rfl

/-! ### Claim C2 -/

/-- Claim C2 (refuting evaluation, code bug): when the debounced batch is
issued, `batchUpdate` writes the loading state with `createInitState`,
whose `isInit` flag is `true`, not cleared.  Concretely, for the batch
`["1"]` the pre-settle dispatch leaves the entry with `isInit = true` and
`"1"` is still a member of the needs-resolution set `needUpdateIds` while
the fetch is in flight, contradicting the claim that the initial flag is
cleared. -/
theorem c2_batch_loading_keeps_isInit :
    objGet (applyActions [("1", createInitState Nat)]
        (batchUpdate (T := Nat) ["1"] true (.ok []) 0).preDispatch) "1"
      = some (createInitState Nat) ∧
    (createInitState Nat).1.isInit = true ∧
    needUpdateIds (applyActions [("1", createInitState Nat)]
        (batchUpdate (T := Nat) ["1"] true (.ok []) 0).preDispatch) = ["1"] := by
  decide

/-! ### Claim C3 -/

/-- Claim C3 (counterexample): for the batch `["1", "2"]` with result map
containing only `"1"`, the entry stored for `"2"` carries the error
message `ID "2" not found`, which is not the message
`identifier "2" not found` stated by the claim. -/
theorem c3_counterexample :
    objGet (applyActions ([] : CacheMap Nat)
        ((batchUpdate ["1", "2"] true (.ok [("1", (7 : Nat))]) 0).preDispatch
          ++ (batchUpdate ["1", "2"] true (.ok [("1", (7 : Nat))]) 0).postDispatch)) "2"
      = some (notFoundEntry Nat "2") ∧
    (notFoundError "2").message = "ID \"2\" not found" ∧
    "ID \"2\" not found" ≠ "identifier \"2\" not found" := by
  decide

/-- Claim C3 (amended): on a successful batch fetch over `ids`, every id
present in the result map becomes Resolved with its value, every id of the
batch absent from the result map becomes Failed with the synthesized error
whose message is `ID "<id>" not found` (for id `"2"`: `ID "2" not found`),
both outcomes coexist in one batch, and entries outside the batch are
unaffected. -/
theorem c3_success_demux (T : Type) (ids : List String) (rm : List (String × T)) (now : Nat)
    (store : CacheMap T) (id : String) (hid : id ∈ ids) :
    (∀ v, objGet rm id = some v →
      objGet (applyActions store (batchUpdate ids true (.ok rm) now).postDispatch) id
        = some (successEntry id v)) ∧
    (objGet rm id = none →
      objGet (applyActions store (batchUpdate ids true (.ok rm) now).postDispatch) id
        = some (notFoundEntry T id) ∧
      (notFoundError id).message = "ID \"" ++ id ++ "\" not found") ∧
    (∀ k, k ∉ ids →
      objGet (applyActions store (batchUpdate ids true (.ok rm) now).postDispatch) k
        = objGet store k) := by
  have hne : ids ≠ [] := by
    rintro rfl
    exact List.not_mem_nil id hid
  refine ⟨?_, ?_, ?_⟩
  · intro v hv
    rw [objGet_applyActions_okPost ids rm store now id hne,
      objGet_errorStateMap, objGet_successStateMap]
    rw [if_neg (by simp [hv]), if_pos hid, hv]
    simp
  · intro hv
    refine ⟨?_, rfl⟩
    rw [objGet_applyActions_okPost ids rm store now id hne, objGet_errorStateMap]
    rw [if_pos ⟨hid, by simp [hv]⟩]
  · intro k hk
    rw [objGet_applyActions_okPost ids rm store now k hne,
      objGet_errorStateMap, objGet_successStateMap]
    rw [if_neg (fun hc => hk hc.1), if_neg hk]

/-- Claim C3 witness: the amended statement instantiated at the batch
`["1", "2"]`, result map `{"1" ↦ 7}`, starting from a store holding an
unrelated entry `"9"`. -/
theorem c3_success_demux_witness :
    ("1" : String) ∈ ["1", "2"] ∧
    objGet (applyActions [("9", successEntry "9" (5 : Nat))]
        (batchUpdate ["1", "2"] true (.ok [("1", (7 : Nat))]) 0).postDispatch) "1"
      = some (successEntry "1" 7) ∧
    objGet (applyActions [("9", successEntry "9" (5 : Nat))]
        (batchUpdate ["1", "2"] true (.ok [("1", (7 : Nat))]) 0).postDispatch) "2"
      = some (notFoundEntry Nat "2") ∧
    objGet (applyActions [("9", successEntry "9" (5 : Nat))]
        (batchUpdate ["1", "2"] true (.ok [("1", (7 : Nat))]) 0).postDispatch) "9"
      = objGet [("9", successEntry "9" (5 : Nat))] "9" := by
  have hmem : ("1" : String) ∈ ["1", "2"] := by decide
  have h1 := c3_success_demux Nat ["1", "2"] [("1", (7 : Nat))] 0
    [("9", successEntry "9" (5 : Nat))] "1" hmem
  have h2 := c3_success_demux Nat ["1", "2"] [("1", (7 : Nat))] 0
    [("9", successEntry "9" (5 : Nat))] "2" (by decide)
  exact ⟨hmem, h1.1 7 (by decide), (h2.2.1 (by decide)).1, h1.2.2 "9" (by decide)⟩

/-! ### Claim C4 -/

/-- Claim C4: when the batch fetch call itself rejects with error `e`,
every identifier of the batch transitions to Failed carrying that same
error, each entry holds its own single-identifier retry closure, and no
identifier outside the batch is mutated. -/
theorem c4_batch_failure (T : Type) (ids : List String) (e : ErrObj) (now : Nat)
    (store : CacheMap T) (id : String) (hid : id ∈ ids) :
    objGet (applyActions store (batchUpdate ids true (.err e) now).postDispatch) id
      = some (batchFailEntry T id e) ∧
    (batchFailEntry T id e).1.error = some e ∧
    (batchFailEntry T id e).2 = RetryAction.refetch id ∧
    (∀ k, k ∉ ids →
      objGet (applyActions store (batchUpdate ids true (.err e) now).postDispatch) k
        = objGet store k) := by
  have hlen : ¬ ids.length = 0 := by
    simpa [List.length_eq_zero] using (by rintro rfl; exact List.not_mem_nil id hid :
      ids ≠ [])
  have hpost : (batchUpdate (T := T) ids true (.err e) now).postDispatch
      = [CacheAction.UPDATE (ids.map (fun id => (id, batchFailEntry T id e)))] := by
    rw [batchUpdate, if_neg hlen]
    rfl
  refine ⟨?_, rfl, rfl, ?_⟩
  · rw [hpost, objGet_applyActions_single_update, objGet_map_pair, if_pos hid]
  · intro k hk
    rw [hpost, objGet_applyActions_single_update, objGet_map_pair, if_neg hk]

/-- Claim C4 witness: the rejecting batch `["1", "2", "3"]` with error
`boom`, evaluated at id `"2"` over a store holding an unrelated `"9"`. -/
theorem c4_batch_failure_witness :
    ("2" : String) ∈ ["1", "2", "3"] ∧
    objGet (applyActions [("9", successEntry "9" (5 : Nat))]
        (batchUpdate ["1", "2", "3"] true (.err ⟨"boom"⟩) 0).postDispatch) "2"
      = some (batchFailEntry Nat "2" ⟨"boom"⟩) ∧
    objGet (applyActions [("9", successEntry "9" (5 : Nat))]
        (batchUpdate ["1", "2", "3"] true (.err ⟨"boom"⟩) 0).postDispatch) "9"
      = objGet [("9", successEntry "9" (5 : Nat))] "9" := by
  have h := c4_batch_failure Nat ["1", "2", "3"] ⟨"boom"⟩ 0
    [("9", successEntry "9" (5 : Nat))] "2" (by decide)
  exact ⟨by decide, h.1, h.2.2.2 "9" (by decide)⟩

/-! ### Claim C8 -/

/-- Claim C8: when the fetch of an in-flight batch settles (resolves or
rejects) after the provider has been torn down (`isMounted` reads false),
no store mutation of any kind occurs for that outcome: the settle-time
dispatch list and the timestamp writes are empty, and applying them leaves
any store unchanged. -/
theorem c8_unmounted_discards_outcome (T : Type) (ids : List String)
    (outcome : FetchOutcome T) (now : Nat) :
    (batchUpdate ids false outcome now).postDispatch = [] ∧
    (batchUpdate ids false outcome now).tsUpdates = [] ∧
    ∀ store : CacheMap T,
      applyActions store (batchUpdate ids false outcome now).postDispatch = store := by
  by_cases h : ids.length = 0 <;>
    cases outcome <;> simp [batchUpdate, h, applyActions]

/-! ### Claim C10 -/

/-- Claim C10: an entry created by `onItemView` for a not-yet-registered
identifier is `createInitState`, whose stored retry closure is the no-op
`async () => \x7b\x7d`: invoking it issues no fetch call, dispatches
nothing, and leaves any store unchanged. -/
theorem c10_init_retry_is_noop (T : Type) (store : CacheMap T) (id : String)
    (mc ms : Bool) (outcome : FetchOutcome T) (now : Nat)
    (h : objGet store id = none) :
    objGet (onItemView store id) id = some (createInitState T) ∧
    (createInitState T).2 = RetryAction.noop ∧
    (runRetry (createInitState T).2 mc ms outcome now : BatchResult T).calls = [] ∧
    (runRetry (createInitState T).2 mc ms outcome now : BatchResult T).preDispatch = [] ∧
    (runRetry (createInitState T).2 mc ms outcome now : BatchResult T).postDispatch = [] ∧
    ∀ s2 : CacheMap T,
      applyActions s2 (runRetry (T := T) (createInitState T).2 mc ms outcome now).postDispatch
        = s2 := by
  refine ⟨?_, rfl, rfl, rfl, rfl, fun s2 => rfl⟩
  rw [onItemView, cacheReducer, objGet_objSpread, h]
  simp [objGet]

/-- Claim C10 witness: the no-op retry of a freshly registered `"1"` over
the empty store. -/
theorem c10_init_retry_is_noop_witness :
    objGet ([] : CacheMap Nat) "1" = none ∧
    objGet (onItemView ([] : CacheMap Nat) "1") "1" = some (createInitState Nat) ∧
    (runRetry (createInitState Nat).2 true true (.ok [("1", (7 : Nat))]) 0
      : BatchResult Nat).calls = [] := by
  have h := c10_init_retry_is_noop Nat [] "1" true true (.ok [("1", (7 : Nat))]) 0 rfl
  exact ⟨rfl, h.1, h.2.2.1⟩

/-! ### Claim C5 -/

/-- Claim C5: `onItemView` (registerInterest) is idempotent on the store:
when the identifier already has an entry, the `ADD` dispatch leaves the
store mapping unchanged at every key, the needs-resolution set is
unchanged as a set (so no additional fetch results), and a register event
by itself never appends a fetch call; when no entry exists, it creates a
`Pending(initial)` entry. -/
theorem c5_onItemView_idempotent (T : Type) (store : CacheMap T) (id : String) :
    ((objGet store id).isSome = true →
      (∀ k, objGet (onItemView store id) k = objGet store k) ∧
      (needUpdateIds (onItemView store id)).toFinset = (needUpdateIds store).toFinset) ∧
    (objGet store id = none →
      objGet (onItemView store id) id = some (createInitState T) ∧
      (createInitState T).1.isInit = true ∧
      (createInitState T).1.loading = true) ∧
    (∀ s : SysState T, s.store = store → (stepEvent s (.register id)).calls = s.calls) := by
  refine ⟨?_, ?_, fun s _ => rfl⟩
  · intro hsome
    have hpres : ∀ k, objGet (onItemView store id) k = objGet store k := by
      intro k
      rw [onItemView, cacheReducer, objGet_objSpread]
      cases hk : objGet store k with
      | some v => rfl
      | none =>
          by_cases hik : id = k
          · subst hik
            rw [hk] at hsome
            simp at hsome
          · simp [objGet, hik]
    refine ⟨hpres, ?_⟩
    apply Finset.ext
    intro x
    simp only [List.mem_toFinset]
    rw [mem_needUpdateIds_iff, mem_needUpdateIds_iff, hpres x]
  · intro hnone
    refine ⟨?_, rfl, rfl⟩
    rw [onItemView, cacheReducer, objGet_objSpread, hnone]
    simp [objGet]

/-- Claim C5 witness: re-registering the already resolved `"1"` changes no
lookup, and registering the fresh `"2"` over the empty store creates the
initial pending entry. -/
theorem c5_onItemView_idempotent_witness :
    (objGet [("1", successEntry "1" (5 : Nat))] "1").isSome = true ∧
    objGet (onItemView [("1", successEntry "1" (5 : Nat))] "1") "1"
      = objGet [("1", successEntry "1" (5 : Nat))] "1" ∧
    (needUpdateIds (onItemView [("1", successEntry "1" (5 : Nat))] "1")).toFinset
      = (needUpdateIds [("1", successEntry "1" (5 : Nat))]).toFinset ∧
    objGet ([] : CacheMap Nat) "2" = none ∧
    objGet (onItemView ([] : CacheMap Nat) "2") "2" = some (createInitState Nat) := by
  have h1 := c5_onItemView_idempotent Nat [("1", successEntry "1" (5 : Nat))] "1"
  have h2 := c5_onItemView_idempotent Nat [] "2"
  exact ⟨by decide, (h1.1 (by decide)).1 "1", (h1.1 (by decide)).2, rfl, (h2.2.1 rfl).1⟩

/-! ### Claim C6 -/

/-- Claim C6 (counterexample): `clearCache` with the explicitly given
EMPTY list removes every entry and every timestamp.  Here `"1"` lies
outside the given list, yet its entry and timestamp are removed,
refuting the claim that entries outside any given list are untouched. -/
theorem c6_counterexample :
    (clearCacheOp [("1", successEntry "1" (5 : Nat))] [("1", 3)] (some [])).1 = [] ∧
    (clearCacheOp [("1", successEntry "1" (5 : Nat))] [("1", 3)] (some [])).2 = [] ∧
    objGet [("1", successEntry "1" (5 : Nat))] "1" = some (successEntry "1" 5) := by
  decide

/-- Claim C6 (amended): when a NON-EMPTY identifier list is given,
`clearCache` removes exactly those identifiers (entries and timestamps)
and leaves all others unchanged; when no list is given, or the given list
is empty, it removes all entries and all timestamps. -/
theorem c6_clearCache (T : Type) (store : CacheMap T) (ts : Timestamps)
    (ids : List String) (hne : ids ≠ []) :
    (∀ k, k ∈ ids →
      objGet (clearCacheOp store ts (some ids)).1 k = none ∧
      objGet (clearCacheOp store ts (some ids)).2 k = none) ∧
    (∀ k, k ∉ ids →
      objGet (clearCacheOp store ts (some ids)).1 k = objGet store k ∧
      objGet (clearCacheOp store ts (some ids)).2 k = objGet ts k) ∧
    clearCacheOp store ts none = ([], []) ∧
    clearCacheOp store ts (some []) = ([], []) := by
  have hlen : 0 < ids.length := List.length_pos.mpr hne
  have hop : clearCacheOp store ts (some ids)
      = (objDeleteKeys store ids, objDeleteKeys ts ids) := by
    rw [clearCacheOp, if_pos hlen]
    rfl
  refine ⟨?_, ?_, rfl, rfl⟩
  · intro k hk
    rw [hop]
    exact ⟨by rw [objGet_objDeleteKeys, if_pos hk],
      by rw [objGet_objDeleteKeys, if_pos hk]⟩
  · intro k hk
    rw [hop]
    exact ⟨by rw [objGet_objDeleteKeys, if_neg hk],
      by rw [objGet_objDeleteKeys, if_neg hk]⟩

/-- Claim C6 witness: clearing `["1"]` from a two-entry store removes
exactly `"1"` and leaves `"2"` with its entry and timestamp. -/
theorem c6_clearCache_witness :
    objGet (clearCacheOp [("1", successEntry "1" (5 : Nat)), ("2", successEntry "2" 6)]
      [("1", 3), ("2", 4)] (some ["1"])).1 "1" = none ∧
    objGet (clearCacheOp [("1", successEntry "1" (5 : Nat)), ("2", successEntry "2" 6)]
      [("1", 3), ("2", 4)] (some ["1"])).1 "2"
      = objGet [("1", successEntry "1" (5 : Nat)), ("2", successEntry "2" 6)] "2" ∧
    objGet (clearCacheOp [("1", successEntry "1" (5 : Nat)), ("2", successEntry "2" 6)]
      [("1", 3), ("2", 4)] (some ["1"])).2 "2" = objGet [("1", 3), ("2", 4)] "2" := by
  have h := c6_clearCache Nat [("1", successEntry "1" (5 : Nat)), ("2", successEntry "2" 6)]
    [("1", 3), ("2", 4)] ["1"] (by decide)
  exact ⟨(h.1 "1" (by decide)).1, (h.2.1 "2" (by decide)).1, (h.2.1 "2" (by decide)).2⟩

/-! ### Claim C9 -/

/-- Claim C9: every entry produced by a batch outcome (Resolved,
not-found Failed, or batch-failure Failed) carries the retry closure
bound to its own identifier; invoking that closure while the provider is
mounted runs `batchUpdate([id])` directly — issuing exactly the singleton
fetch call `[id]` with no debounce step involved — and all of its
dispatches leave every other identifier's entry unchanged. -/
theorem c9_retry_singleton (T : Type) (id : String) (v : T) (e : ErrObj) (ms : Bool)
    (outcome : FetchOutcome T) (now : Nat) :
    (successEntry id v : AsyncFnReturn T).2 = RetryAction.refetch id ∧
    (notFoundEntry T id).2 = RetryAction.refetch id ∧
    (batchFailEntry T id e).2 = RetryAction.refetch id ∧
    (runRetry (RetryAction.refetch id) true ms outcome now : BatchResult T).calls = [[id]] ∧
    (∀ store k, k ≠ id →
      objGet (applyActions store
        ((runRetry (RetryAction.refetch id) true ms outcome now : BatchResult T).preDispatch
          ++ (runRetry (RetryAction.refetch id) true ms outcome now
              : BatchResult T).postDispatch)) k
        = objGet store k) := by
  have hrun : (runRetry (RetryAction.refetch id) true ms outcome now : BatchResult T)
      = batchUpdate [id] ms outcome now := rfl
  have hlen : ¬ ([id] : List String).length = 0 := by simp
  refine ⟨rfl, rfl, rfl, ?_, ?_⟩
  · rw [hrun]
    exact (batchUpdate_nonempty_parts [id] ms outcome now hlen).2
  · intro store k hk
    rw [hrun, applyActions_append]
    have hpre : objGet (applyActions store (batchUpdate (T := T) [id] ms outcome now).preDispatch) k
        = objGet store k := by
      rw [(batchUpdate_nonempty_parts [id] ms outcome now hlen).1,
        objGet_applyActions_single_update, loadingStateMap, objGet_map_pair,
        if_neg (by simpa using hk)]
    cases ms with
    | false =>
        rw [(batchUpdate_not_mounted [id] outcome now).1]
        exact hpre
    | true =>
        cases outcome with
        | ok rm =>
            rw [objGet_applyActions_okPost [id] rm _ now k (by simp),
              objGet_errorStateMap, objGet_successStateMap,
              if_neg (fun hc => hk (by simpa using hc.1)),
              if_neg (by simpa using hk)]
            exact hpre
        | err e2 =>
            rw [batchUpdate_err_post [id] e2 now hlen,
              objGet_applyActions_single_update, objGet_map_pair,
              if_neg (by simpa using hk)]
            exact hpre

/-- Claim C9 witness: retrying `"1"` while a resolved `"2"` sits in the
store issues exactly the fetch call `["1"]` and leaves `"2"` unchanged. -/
theorem c9_retry_singleton_witness :
    (runRetry (RetryAction.refetch "1") true true (.ok [("1", (7 : Nat))]) 0
      : BatchResult Nat).calls = [["1"]] ∧
    ("2" : String) ≠ "1" ∧
    objGet (applyActions [("2", successEntry "2" (9 : Nat))]
      ((runRetry (RetryAction.refetch "1") true true (.ok [("1", (7 : Nat))]) 0
          : BatchResult Nat).preDispatch
        ++ (runRetry (RetryAction.refetch "1") true true (.ok [("1", (7 : Nat))]) 0
            : BatchResult Nat).postDispatch)) "2"
      = objGet [("2", successEntry "2" (9 : Nat))] "2" := by
  have h := c9_retry_singleton Nat "1" (7 : Nat) ⟨"boom"⟩ true (.ok [("1", (7 : Nat))]) 0
  exact ⟨h.2.2.2.1, by decide, h.2.2.2.2 [("2", successEntry "2" (9 : Nat))] "2" (by decide)⟩

/-! ### Claim C7 -/

theorem mem_expiredIdsOf_iff (ttl now : Nat) (ts : Timestamps) (k : String) :
    k ∈ expiredIdsOf ttl now ts ↔ ∃ t, objGet ts k = some t ∧ ttl < now - t := by
  rw [expiredIdsOf, List.mem_filter]
  constructor
  · rintro ⟨-, hp⟩
    cases hg : objGet ts k with
    | none => rw [hg] at hp; simp at hp
    | some t =>
        rw [hg] at hp
        exact ⟨t, rfl, of_decide_eq_true hp⟩
  · rintro ⟨t, hg, ht⟩
    refine ⟨?_, ?_⟩
    · rw [← objGet_isSome_iff_mem_keys, hg]
      rfl
    · rw [hg]
      exact decide_eq_true ht

/-- Each sweep tick removes from the store exactly the entries whose
timestamp is strictly older than the TTL. -/
theorem checkExpired_store_get {T : Type} (ttl now : Nat) (ts : Timestamps)
    (store : CacheMap T) (k : String) :
    objGet (checkExpired ttl now ts store).1 k
      = match objGet ts k with
        | some t => if ttl < now - t then none else objGet store k
        | none => objGet store k := by
  rw [checkExpired]
  by_cases h : 0 < (expiredIdsOf ttl now ts).length
  · rw [if_pos h]
    simp only
    rw [objGet_objDeleteKeys]
    by_cases hk : k ∈ expiredIdsOf ttl now ts
    · rw [if_pos hk]
      obtain ⟨t, hg, ht⟩ := (mem_expiredIdsOf_iff ttl now ts k).mp hk
      rw [hg]
      simp [ht]
    · rw [if_neg hk]
      cases hg : objGet ts k with
      | none => rfl
      | some t =>
          have hc : ¬ ttl < now - t :=
            fun hex => hk ((mem_expiredIdsOf_iff ttl now ts k).mpr ⟨t, hg, hex⟩)
          simp [hc]
  · rw [if_neg h]
    have hnil : expiredIdsOf ttl now ts = [] := List.length_eq_zero.mp (by omega)
    cases hg : objGet ts k with
    | none => rfl
    | some t =>
        have hc : ¬ ttl < now - t := by
          intro hex
          have := (mem_expiredIdsOf_iff ttl now ts k).mpr ⟨t, hg, hex⟩
          rw [hnil] at this
          exact List.not_mem_nil k this
        simp [hc]

/-- Each sweep tick drops from the timestamp record exactly the
timestamps strictly older than the TTL. -/
theorem checkExpired_ts_get {T : Type} (ttl now : Nat) (ts : Timestamps)
    (store : CacheMap T) (k : String) :
    objGet (checkExpired (T := T) ttl now ts store).2 k
      = match objGet ts k with
        | some t => if ttl < now - t then none else some t
        | none => none := by
  rw [checkExpired]
  by_cases h : 0 < (expiredIdsOf ttl now ts).length
  · rw [if_pos h]
    simp only
    rw [objGet_objDeleteKeys]
    by_cases hk : k ∈ expiredIdsOf ttl now ts
    · rw [if_pos hk]
      obtain ⟨t, hg, ht⟩ := (mem_expiredIdsOf_iff ttl now ts k).mp hk
      rw [hg]
      simp [ht]
    · rw [if_neg hk]
      cases hg : objGet ts k with
      | none => rfl
      | some t =>
          have hc : ¬ ttl < now - t :=
            fun hex => hk ((mem_expiredIdsOf_iff ttl now ts k).mpr ⟨t, hg, hex⟩)
          simp [hc]
  · rw [if_neg h]
    have hnil : expiredIdsOf ttl now ts = [] := List.length_eq_zero.mp (by omega)
    cases hg : objGet ts k with
    | none => rfl
    | some t =>
        have hc : ¬ ttl < now - t := by
          intro hex
          have := (mem_expiredIdsOf_iff ttl now ts k).mpr ⟨t, hg, hex⟩
          rw [hnil] at this
          exact List.not_mem_nil k this
        simp [hc]

/-- The TTL scenario of the claim: a consumer registers `"1"`, the
debounced batch settles at t=0 and resolves with a value, stamping the
entry with timestamp 0. -/
def ttlScenario : SysState Nat :=
  runEvents ⟨[], [], []⟩ [Event.register "1", Event.settleBatch (.ok [("1", 7)]) 0]

/-- Claim C7 (counterexample): with `cacheTTL = 1000`, the sweep runs with
period `min(1000, 60000) = 1000`, so ticks occur at t=1000, 2000, ....
The tick at t=1000 compares `1000 - 0 > 1000`, which is false, so the
entry resolved at t=0 is NOT evicted; the sweep state is completely
unchanged, and no tick occurs between t=1000 and t=2000.  Hence at
t=1001 the entry is still in the store, refuting the claim that it is
absent by t=1001. -/
theorem c7_counterexample :
    sweepPeriod 1000 = 1000 ∧
    ttlScenario.calls = [["1"]] ∧
    objGet ttlScenario.timestamps "1" = some 0 ∧
    (objGet (stepEvent ttlScenario (.tick 1000 1000)).store "1").isSome = true ∧
    stepEvent ttlScenario (.tick 1000 1000) = ttlScenario := by
  decide

/-- Claim C7 (amended): with `cacheTTL = 1000` the sweep period is
`min(ttl, 60000) = 1000`; an entry resolved at t=0 survives the tick at
t=1000 (the comparison `now - t > ttl` is strict) and is evicted,
together with its timestamp, at the first tick at which its age strictly
exceeds the TTL, here t=2000; in general each tick removes exactly the
entries (and timestamps) strictly older than the TTL; a sweep tick never
issues a fetch call, and after eviction the needs-resolution set is empty
so further debounce settles issue nothing — the fetch call count stays at
1 until a consumer re-registers the identifier, after which the next
settle issues exactly one new fetch for it. -/
theorem c7_ttl_eviction :
    sweepPeriod 1000 = 1000 ∧
    (objGet (stepEvent ttlScenario (.tick 1000 1000)).store "1").isSome = true ∧
    (stepEvent (stepEvent ttlScenario (.tick 1000 1000)) (.tick 1000 2000)).store = [] ∧
    (stepEvent (stepEvent ttlScenario (.tick 1000 1000)) (.tick 1000 2000)).timestamps = [] ∧
    (stepEvent (stepEvent ttlScenario (.tick 1000 1000)) (.tick 1000 2000)).calls = [["1"]] ∧
    (∀ (s : SysState Nat) (ttl tnow : Nat), (stepEvent s (.tick ttl tnow)).calls = s.calls) ∧
    (∀ (o : FetchOutcome Nat) (tnow : Nat),
      stepEvent (stepEvent (stepEvent ttlScenario (.tick 1000 1000)) (.tick 1000 2000))
        (.settleBatch o tnow)
        = stepEvent (stepEvent ttlScenario (.tick 1000 1000)) (.tick 1000 2000)) ∧
    (∀ (ttl tnow : Nat) (ts : Timestamps) (store : CacheMap Nat) (k : String),
      objGet (checkExpired ttl tnow ts store).1 k
        = match objGet ts k with
          | some t => if ttl < tnow - t then none else objGet store k
          | none => objGet store k) ∧
    (runEvents (stepEvent (stepEvent ttlScenario (.tick 1000 1000)) (.tick 1000 2000))
      [Event.register "1", Event.settleBatch (.ok [("1", 9)]) 2500]).calls
      = [["1"], ["1"]] := by
  refine ⟨rfl, by decide, by decide, by decide, by decide, fun s ttl tnow => ?_, ?_, ?_, by decide⟩
  · cases h : checkExpired ttl tnow s.timestamps s.store
    simp [stepEvent, h]
  · intro o tnow
    rfl
  · intro ttl tnow ts store k
    exact checkExpired_store_get ttl tnow ts store k

/-! ### Claim C1

The `ADD` dispatch of a registration places the new key at the front of
the key-enumeration order (`{...payload, ...state}` puts the payload key
first) and, for an already present key, moves it to the front while the
existing entry value wins.  The following definitions capture the key
order produced by a sequence of registrations. -/

/-- The effect of one registration on a store whose entries are all
`createInitState` and whose keys avoid the ambient suffix. -/
def addFront {T : Type} (m : CacheMap T) (a : String) : CacheMap T :=
  (a, createInitState T) :: m.filter (fun p => decide (p.1 ≠ a))

/-- The store fragment built by a sequence of registrations over an empty
prefix. -/
def regMap (T : Type) (l : List String) : CacheMap T :=
  l.foldl addFront []

/-- The corresponding key order: each registered id moves to the front. -/
def orderStep (acc : List String) (a : String) : List String :=
  a :: acc.filter (fun b => decide (b ≠ a))

/-- The deterministic fetch-argument order produced by registering the
ids of `l` in sequence into a quiet store: most recently registered
first, duplicates collapsed to their final position. -/
def regOrder (l : List String) : List String :=
  l.foldl orderStep []

theorem keys_filter_key {α : Type} (m : List (String × α)) (q : String → Bool) :
    (m.filter (fun p => q p.1)).map Prod.fst = (m.map Prod.fst).filter q := by
  induction m with
  | nil => rfl
  | cons p rest ih => by_cases h : q p.1 <;> simp [h, ih]

/-- One registration over a decomposed store `m ++ s`: when every entry of
`m` is the initial entry and `a` is absent from `s`, the `ADD` dispatch
rebuilds the front fragment with `a` moved to the front and leaves the
suffix `s` untouched. -/
theorem onItemView_append {T : Type} (m s : CacheMap T) (a : String)
    (hm : ∀ p ∈ m, p.2 = createInitState T)
    (hsa : objGet s a = none) :
    onItemView (m ++ s) a = addFront m a ++ s := by
  rw [onItemView, cacheReducer, objSpread]
  have hxval : (match objGet (m ++ s) a with
      | some v => (a, v)
      | none => (a, createInitState T)) = (a, createInitState T) := by
    rw [objGet_append]
    cases hma : objGet m a with
    | none => rw [hsa]
    | some v =>
        have hv : v = createInitState T := hm _ (objGet_eq_some_mem hma)
        rw [hv]
  have hpred : (fun p : String × AsyncFnReturn T =>
      (objGet [(a, createInitState T)] p.1).isNone) = fun p => decide (p.1 ≠ a) := by
    funext p
    by_cases h : a = p.1
    · simp [objGet, h]
    · simp [objGet, h]
      exact fun hc => h hc.symm
  have hsfil : s.filter (fun p => decide (p.1 ≠ a)) = s := by
    rw [List.filter_eq_self]
    intro p hp
    have hkey : p.1 ≠ a := by
      intro hpa
      have : (objGet s a).isSome := by
        rw [objGet_isSome_iff_mem_keys]
        exact hpa ▸ List.mem_map_of_mem Prod.fst hp
      rw [hsa] at this
      simp at this
    exact decide_eq_true hkey
  simp only [List.map_cons, List.map_nil, hpred, List.filter_append, hsfil]
  rw [addFront]
  cases hga : objGet (m ++ s) a with
  | none => rfl
  | some v =>
      have hv : v = createInitState T := by
        rw [hga] at hxval
        simpa using hxval
      simp [hv]

/-- A registration sequence over `m ++ s` folds entirely inside the front
fragment when the registered ids are absent from the suffix. -/
theorem registerAll_decomp {T : Type} :
    ∀ (l : List String) (m s : CacheMap T),
    (∀ p ∈ m, p.2 = createInitState T) →
    (∀ x ∈ l, objGet s x = none) →
    List.foldl onItemView (m ++ s) l = (List.foldl addFront m l) ++ s := by
  intro l
  induction l with
  | nil => intro m s _ _; rfl
  | cons a rest ih =>
      intro m s hm hl
      rw [List.foldl_cons, List.foldl_cons,
        onItemView_append m s a hm (hl a (List.mem_cons_self a rest))]
      refine ih (addFront m a) s ?_ ?_
      · intro p hp
        rcases List.mem_cons.mp hp with h | h
        · rw [h]
        · exact hm _ (List.mem_of_mem_filter h)
      · exact fun x hx => hl x (List.mem_cons_of_mem a hx)

theorem foldl_addFront_values {T : Type} :
    ∀ (l : List String) (m : CacheMap T),
    (∀ p ∈ m, p.2 = createInitState T) →
    ∀ p ∈ l.foldl addFront m, p.2 = createInitState T := by
  intro l
  induction l with
  | nil => intro m hm; exact hm
  | cons a rest ih =>
      intro m hm
      rw [List.foldl_cons]
      refine ih (addFront m a) ?_
      intro p hp
      rcases List.mem_cons.mp hp with h | h
      · rw [h]
      · exact hm _ (List.mem_of_mem_filter h)

theorem keys_foldl_addFront {T : Type} :
    ∀ (l : List String) (m : CacheMap T),
    (l.foldl addFront m).map Prod.fst = l.foldl orderStep (m.map Prod.fst) := by
  intro l
  induction l with
  | nil => intro m; rfl
  | cons a rest ih =>
      intro m
      rw [List.foldl_cons, List.foldl_cons, ih]
      congr 1
      rw [addFront, orderStep, List.map_cons,
        keys_filter_key m (fun b => decide (b ≠ a))]

theorem foldl_orderStep_nodup :
    ∀ (l acc : List String), acc.Nodup → (l.foldl orderStep acc).Nodup := by
  intro l
  induction l with
  | nil => intro acc h; exact h
  | cons a rest ih =>
      intro acc h
      rw [List.foldl_cons]
      refine ih (orderStep acc a) ?_
      rw [orderStep]
      refine List.Nodup.cons ?_ (List.Nodup.filter _ h)
      intro hmem
      have := (List.mem_filter.mp hmem).2
      simp at this

theorem foldl_orderStep_toFinset :
    ∀ (l acc : List String), (l.foldl orderStep acc).toFinset = acc.toFinset ∪ l.toFinset := by
  intro l
  induction l with
  | nil => intro acc; simp
  | cons a rest ih =>
      intro acc
      rw [List.foldl_cons, ih]
      apply Finset.ext
      intro x
      simp only [orderStep, List.toFinset_cons, Finset.mem_union, Finset.mem_insert,
        List.mem_toFinset, List.mem_filter, decide_eq_true_eq, List.mem_cons]
      constructor
      · rintro (h | h)
        · rcases h with h | ⟨h1, -⟩
          · exact Or.inr (Or.inl h)
          · exact Or.inl h1
        · exact Or.inr (Or.inr h)
      · rintro (h | h)
        · by_cases hxa : x = a
          · exact Or.inl (Or.inl hxa)
          · exact Or.inl (Or.inr ⟨h, hxa⟩)
        · rcases h with h | h
          · exact Or.inl (Or.inl h)
          · exact Or.inr h

theorem foldl_orderStep_ne_nil :
    ∀ (l acc : List String), l ≠ [] → l.foldl orderStep acc ≠ [] := by
  intro l
  induction l with
  | nil => intro acc h; exact absurd rfl h
  | cons a rest ih =>
      intro acc _
      rw [List.foldl_cons]
      cases hr : rest with
      | nil => simp [orderStep]
      | cons b r =>
          rw [← hr]
          exact ih (orderStep acc a) (by rw [hr]; exact List.cons_ne_nil b r)

/-- The needs-resolution set of a decomposed store: the front fragment
consists entirely of initial entries (all its keys qualify), the quiet
suffix contributes nothing. -/
theorem needUpdateIds_append_quiet {T : Type} (R s : CacheMap T)
    (hR : ∀ p ∈ R, p.2 = createInitState T)
    (hs : ∀ p ∈ s, p.2.1.isInit = false)
    (hdisj : ∀ k ∈ s.map Prod.fst, objGet R k = none) :
    needUpdateIds (R ++ s) = R.map Prod.fst := by
  rw [needUpdateIds, List.map_append, List.filter_append]
  have h1 : ∀ k ∈ R.map Prod.fst,
      (match objGet (R ++ s) k with
        | some e => e.1.isInit
        | none => false) = true := by
    intro k hk
    have hsome : (objGet R k).isSome := (objGet_isSome_iff_mem_keys R k).mpr hk
    cases hg : objGet R k with
    | none => rw [hg] at hsome; simp at hsome
    | some e =>
        have he : e = createInitState T := hR _ (objGet_eq_some_mem hg)
        rw [objGet_append, hg, he]
        rfl
  have h2 : ∀ k ∈ s.map Prod.fst,
      (match objGet (R ++ s) k with
        | some e => e.1.isInit
        | none => false) = false := by
    intro k hk
    have hsome : (objGet s k).isSome := (objGet_isSome_iff_mem_keys s k).mpr hk
    cases hg : objGet s k with
    | none => rw [hg] at hsome; simp at hsome
    | some e =>
        have he : e.1.isInit = false := hs _ (objGet_eq_some_mem hg)
        rw [objGet_append, hdisj k hk, hg]
        exact he
  rw [List.filter_eq_self.mpr h1, List.filter_eq_nil_iff.mpr (by
    intro k hk
    rw [h2 k hk]
    exact Bool.false_ne_true), List.append_nil]

/-- A pure registration event only touches the store. -/
theorem runEvents_register_map {T : Type} :
    ∀ (l : List String) (s : SysState T),
    runEvents s (l.map Event.register)
      = { s with store := l.foldl onItemView s.store } := by
  intro l
  induction l with
  | nil => intro s; rfl
  | cons a rest ih =>
      intro s
      rw [List.map_cons, runEvents, List.foldl_cons, ← runEvents, ih, List.foldl_cons]
      rfl

/-- Claim C1: registering any non-empty sequence of fresh identifiers
into a quiet store (no entry pending-initial, none of the new ids
present) and letting the debounce window settle issues exactly one fetch
call, whose argument list is `regOrder l` — a duplicate-free list,
deterministic in the registration sequence, containing exactly the
registered identifiers. -/
theorem c1_coalesced_window (T : Type) (s : SysState T) (l : List String)
    (hquiet : ∀ p ∈ s.store, p.2.1.isInit = false)
    (hfresh : ∀ a ∈ l, objGet s.store a = none)
    (hne : l ≠ []) (outcome : FetchOutcome T) (now : Nat) :
    (stepEvent (runEvents s (l.map Event.register)) (.settleBatch outcome now)).calls
      = s.calls ++ [regOrder l] ∧
    (regOrder l).Nodup ∧
    (regOrder l).toFinset = l.toFinset := by
  have hkeys : (regMap T l).map Prod.fst = regOrder l := by
    rw [regMap, keys_foldl_addFront, regOrder]
    rfl
  have hfin : (regOrder l).toFinset = l.toFinset := by
    rw [regOrder, foldl_orderStep_toFinset]
    simp
  have hdecomp : List.foldl onItemView s.store l = regMap T l ++ s.store := by
    have := registerAll_decomp l [] s.store (by intro p hp; simp at hp) hfresh
    rw [List.nil_append] at this
    rw [this, regMap]
  have hRvals : ∀ p ∈ regMap T l, p.2 = createInitState T :=
    foldl_addFront_values l [] (by intro p hp; simp at hp)
  have hdisj : ∀ k ∈ s.store.map Prod.fst, objGet (regMap T l) k = none := by
    intro k hk
    cases hg : objGet (regMap T l) k with
    | none => rfl
    | some e =>
        exfalso
        have hkR : k ∈ (regMap T l).map Prod.fst :=
          (objGet_isSome_iff_mem_keys _ k).mp (by rw [hg]; rfl)
        rw [hkeys] at hkR
        have hkl : k ∈ l := by
          have := hfin ▸ List.mem_toFinset.mpr hkR
          exact List.mem_toFinset.mp this
        have : (objGet s.store k).isSome := (objGet_isSome_iff_mem_keys _ k).mpr hk
        rw [hfresh k hkl] at this
        simp at this
  have hneed : needUpdateIds (List.foldl onItemView s.store l) = regOrder l := by
    rw [hdecomp, needUpdateIds_append_quiet (regMap T l) s.store hRvals hquiet hdisj, hkeys]
  have hordne : regOrder l ≠ [] := foldl_orderStep_ne_nil l [] hne
  have hlen : 0 < (regOrder l).length := List.length_pos.mpr hordne
  refine ⟨?_, ?_, hfin⟩
  · rw [runEvents_register_map l s]
    show (stepEvent ⟨List.foldl onItemView s.store l, s.timestamps, s.calls⟩
      (.settleBatch outcome now)).calls = s.calls ++ [regOrder l]
    rw [stepEvent]
    simp only [hneed, if_pos hlen]
    rw [(batchUpdate_nonempty_parts (regOrder l) true outcome now
      (by omega)).2]
  · rw [regOrder]
    exact foldl_orderStep_nodup l [] List.nodup_nil

/-- Claim C1 witness: registering `["1", "2", "1"]` (with a duplicate)
into a quiet store holding a resolved `"9"` and one previous call: the
settle issues exactly one new call `["1", "2"]`, duplicate-free and
containing exactly the registered set. -/
theorem c1_coalesced_window_witness :
    (stepEvent (runEvents ⟨[("9", successEntry "9" (1 : Nat))], [], [["9"]]⟩
        (["1", "2", "1"].map Event.register)) (.settleBatch (.ok []) 5)).calls
      = [["9"]] ++ [regOrder ["1", "2", "1"]] ∧
    (regOrder ["1", "2", "1"]).Nodup ∧
    (regOrder ["1", "2", "1"]).toFinset = (["1", "2", "1"] : List String).toFinset :=
  c1_coalesced_window Nat ⟨[("9", successEntry "9" (1 : Nat))], [], [["9"]]⟩
    ["1", "2", "1"] (by decide) (by decide) (by decide) (.ok []) 5

end ReactIdName
